import Mathlib

/-!
Verification development for the `pos2etl` e-commerce ETL pipeline
(`app/etl.py`, `app/utils.py`).

The pipeline reads CSV batches, normalizes rows into a staging table
(`staging_ecomm_sales`), and merges staged rows into a core table
(`core_ecomm_sales`) keyed by the derived `line_item_id =
CONCAT(invoice, '_', stockcode)` with `ON CONFLICT (line_item_id) DO
NOTHING`, then truncates staging.

The embedding below models the SQL tables as Lean lists, the
PostgreSQL `INSERT ... SELECT ... ON CONFLICT DO NOTHING` statement as
a sequential insert-if-absent fold, and the Python control flow
(exception handling in `process_file_to_staging`, `move_data_to_core`,
`get_db_engine` and `main`) as explicit result-passing functions.
-/

/-- A row of `staging_ecomm_sales` after normalization in
`process_file_to_staging`.  String columns are plain strings (the
loader always writes strings after `astype(str)`), `quantity` is an
integer, `invoicedate` an epoch timestamp, and the DECIMAL columns are
rationals. -/
structure StagingRow where
  invoice : String
  stockcode : String
  description : String
  quantity : Int
  invoicedate : Int
  price : Rat
  customer_id : String
  country : String
  desc_low : String
  category : String
  margin : Rat
  profit : Rat
  source_file : String
deriving DecidableEq

/-- A row of `core_ecomm_sales`: the staging columns minus
`source_file`, plus the derived primary key `line_item_id`
(`CREATE_CORE_TABLE`). -/
structure CoreRow where
  line_item_id : String
  invoice : String
  stockcode : String
  description : String
  quantity : Int
  invoicedate : Int
  price : Rat
  customer_id : String
  country : String
  desc_low : String
  category : String
  margin : Rat
  profit : Rat
deriving DecidableEq

/-- `CONCAT(invoice, '_', stockcode) AS line_item_id` from
`INSERT_FROM_STAGING`. -/
def lineItemId (r : StagingRow) : String :=
  r.invoice ++ "_" ++ r.stockcode

/-- The SELECT projection of `INSERT_FROM_STAGING`: carry every
business column to the core row, derive `line_item_id`, drop
`source_file`. -/
def toCore (r : StagingRow) : CoreRow :=
  { line_item_id := lineItemId r
    invoice := r.invoice
    stockcode := r.stockcode
    description := r.description
    quantity := r.quantity
    invoicedate := r.invoicedate
    price := r.price
    customer_id := r.customer_id
    country := r.country
    desc_low := r.desc_low
    category := r.category
    margin := r.margin
    profit := r.profit }

/-- The multiset of primary-key values present in the core table. -/
def coreKeys (core : List CoreRow) : List String :=
  core.map (fun c => c.line_item_id)

/-- `INSERT INTO core_ecomm_sales ... SELECT ... FROM
staging_ecomm_sales ON CONFLICT (line_item_id) DO NOTHING`.

PostgreSQL processes the source rows sequentially; a row whose derived
key collides with an existing core row, or with a row inserted earlier
by the same statement, is skipped (`DO NOTHING`).  Returns the new
core table and the statement's rowcount (number of rows actually
inserted), which `move_data_to_core` logs. -/
def insertFromStaging (core : List CoreRow) (staging : List StagingRow) :
    List CoreRow × Nat :=
  match staging with
  | [] => (core, 0)
  | r :: rest =>
    if lineItemId r ∈ coreKeys core then
      insertFromStaging core rest
    else
      let p := insertFromStaging (core ++ [toCore r]) rest
      (p.1, p.2 + 1)

/-- Merging a sequence of batches one after the other (each batch
staged and merged before the next), starting from a given core
table. -/
def mergeBatches (core : List CoreRow) (batches : List (List StagingRow)) :
    List CoreRow :=
  batches.foldl (fun c b => (insertFromStaging c b).1) core

/-- A fixed sample staging row used as concrete input in witnesses. -/
def sampleRow (inv stock : String) (qty : Int) : StagingRow :=
  { invoice := inv
    stockcode := stock
    description := "desc"
    quantity := qty
    invoicedate := 0
    price := 0
    customer_id := "12345"
    country := "United Kingdom"
    desc_low := "desc"
    category := "cat"
    margin := 0
    profit := 0
    source_file := "batch.csv" }

/-! ### Row normalization (`process_file_to_staging`, transformation steps) -/

/-- `Series.str.lower()` applied to a header: lowercase every
character (pandas lowercases per character; on ASCII headers this is
`Char.toLower`). -/
def lowerHeader (s : String) : String :=
  String.mk (s.data.map Char.toLower)

/-- `Series.str.replace(' ', '_')` applied to a header: the pattern is
the single character `' '`, so the substring replacement replaces each
space character with `'_'`. -/
def replaceSpaces (s : String) : String :=
  String.mk (s.data.map (fun c => if c = ' ' then '_' else c))

/-- `df.columns = df.columns.str.lower().str.replace(' ', '_')`
(step 1 of the transformation). -/
def normalizeHeader (s : String) : String :=
  replaceSpaces (lowerHeader s)

/-- Digit-string parser: a non-empty all-digit character list parses
to the decimal number it spells, anything else fails. -/
def parseNatDigits (cs : List Char) : Option Nat :=
  if cs ≠ [] ∧ cs.all Char.isDigit then
    some (cs.foldl (fun n c => n * 10 + (c.toNat - '0'.toNat)) 0)
  else none

/-- Integer-literal parser for a CSV cell: an optional leading minus
sign followed by digits; anything else fails. -/
def parseIntCell (s : String) : Option Int :=
  match s.data with
  | '-' :: rest => (parseNatDigits rest).map (fun n => -(n : Int))
  | cs => (parseNatDigits cs).map (fun n => (n : Int))

/-- `pd.to_numeric(x, errors='coerce')` on the `quantity` column: a
missing cell stays missing (NaN), an unparseable string becomes
missing (NaN), a parseable integer literal parses.  A raw CSV cell is
`Option String` (`none` = empty cell). -/
def toNumericCoerce (v : Option String) : Option Int :=
  v.bind parseIntCell

/-- `pd.to_numeric(df['quantity'], errors='coerce').fillna(0).astype(int)`
(step 2): coerce, fill NaN with 0, cast to int. -/
def normalizeQuantity (v : Option String) : Int :=
  (toNumericCoerce v).getD 0

/-- `pd.to_numeric(x, errors='coerce')` on a decimal column (`price`,
`margin`, `profit`), with the numeric literal parser abstracted as
`parse`. -/
def toNumericCoerceRat (parse : String → Option Rat) (v : Option String) :
    Option Rat :=
  v.bind parse

/-- `pd.to_numeric(df[c], errors='coerce').fillna(0)` for the decimal
columns `price`, `margin`, `profit` (step 2). -/
def normalizeDecimal (parse : String → Option Rat) (v : Option String) : Rat :=
  (toNumericCoerceRat parse v).getD 0

/-- `Series.astype(str)` on a string column: a present cell keeps its
string value, a missing cell (float NaN) is converted to the string
representation of NaN, the three-character string `"nan"`. -/
def astypeStr (v : Option String) : Option String :=
  match v with
  | none => some "nan"
  | some s => some s

/-- `Series.fillna(sentinel)`: replace missing cells by the sentinel,
leave present cells alone. -/
def fillnaStr (sentinel : String) (v : Option String) : Option String :=
  match v with
  | none => some sentinel
  | some s => some s

/-- `df[col].astype(str).fillna('Unknown')` (step 3), applied to each
of the string columns `invoice`, `stockcode`, `description`,
`customer_id`, `country`, `desc_low`, `category`. -/
def normalizeStrField (v : Option String) : Option String :=
  fillnaStr "Unknown" (astypeStr v)

/-- What the spec states for step 3. Modelled from the spec: "String
fields: missing/null values are filled with a sentinel (Unknown)
rather than propagated as null". -/
def specNormalizeStrField (v : Option String) : Option String :=
  fillnaStr "Unknown" v

/-! ### File loading (`process_file_to_staging` control flow) -/

/-- The fate of one CSV file in `process_file_to_staging`, as decided
by the I/O and pandas steps that the embedding does not model
byte-by-byte:
* `ok rows` — the file parsed and normalized into `rows`;
* `badAfterRead e` — `pd.read_csv` succeeded (so the local `df` is
  bound) but a later step raised `e` (e.g. `pd.to_datetime` failure,
  missing required column);
* `badAtRead e` — `pd.read_csv` itself raised `e`, so the local `df`
  was never bound. -/
inductive FileInput where
  | ok (rows : List StagingRow)
  | badAfterRead (err : String)
  | badAtRead (err : String)
deriving DecidableEq

/-- `process_file_to_staging(filepath, engine)` acting on the staging
table.  The body is wrapped in `try/except Exception`: on success the
rows are appended (`to_sql(..., if_exists='append')`); on a failure
after `df` is bound the handler logs and returns, leaving staging
unchanged; on a failure in `pd.read_csv` the handler's second line
`logger.debug(f"File columns: {list(df.columns)}")` evaluates `df`
while it is unbound, so the handler itself raises
`UnboundLocalError`, which escapes the function. -/
def processFileToStaging (staging : List StagingRow) (input : FileInput) :
    Except String (List StagingRow) :=
  match input with
  | .ok rows => .ok (staging ++ rows)
  | .badAfterRead _ => .ok staging
  | .badAtRead _ => .error "UnboundLocalError"

/-- The load loop in `main`: `for f in csv_files:
process_file_to_staging(f, engine)`.  An exception escaping
`process_file_to_staging` propagates to `main`'s `except` clause, so
the loop stops at the first such file. -/
def loadFiles (staging : List StagingRow) (files : List FileInput) :
    Except String (List StagingRow) :=
  match files with
  | [] => .ok staging
  | f :: rest =>
    match processFileToStaging staging f with
    | .ok staging2 => loadFiles staging2 rest
    | .error e => .error e

/-- The rows a file contributes to staging when its load attempt is
isolated: the parsed rows for a good file, nothing for a failed one. -/
def okRows (f : FileInput) : Option (List StagingRow) :=
  match f with
  | .ok rows => some rows
  | .badAfterRead _ => none
  | .badAtRead _ => none

/-! ### Merge and orchestration (`move_data_to_core`, `get_db_engine`, `main`) -/

/-- `move_data_to_core(engine)`.  The insert statement and its commit
form the first transactional unit; `TRUNCATE` the second.  The flag
`insertOk` says whether the backing store executes the insert
transaction successfully; on failure the transaction is rolled back,
the error is logged and re-raised (`raise`), and both tables keep
their prior contents.  On success the insert's rowcount is logged and
staging is truncated. -/
def moveDataToCore (core : List CoreRow) (staging : List StagingRow)
    (insertOk : Bool) :
    (List CoreRow × List StagingRow) × Except String Nat :=
  if insertOk then
    let p := insertFromStaging core staging
    ((p.1, []), .ok p.2)
  else
    ((core, staging), .error "merge error")

/-- The five environment variables read by `get_db_engine`
(`POSTGRES_USER`, `POSTGRES_PASSWORD`, `POSTGRES_HOST`,
`POSTGRES_PORT`, `POSTGRES_DB`); `none` models an unset variable. -/
structure DBConfig where
  user : Option String
  password : Option String
  host : Option String
  port : Option String
  name : Option String
deriving DecidableEq

/-- Python truthiness of an optional environment string: `None` and
the empty string are falsy. -/
def envTruthy (v : Option String) : Bool :=
  match v with
  | none => false
  | some s => !s.isEmpty

/-- `all([db_user, db_pass, db_host, db_port, db_name])` in
`get_db_engine`. -/
def configComplete (c : DBConfig) : Bool :=
  envTruthy c.user && envTruthy c.password && envTruthy c.host &&
    envTruthy c.port && envTruthy c.name

/-- `get_db_engine()`: if any variable is falsy, a `ValueError` is
raised, caught by the function's own handler, and `sys.exit(1)` runs;
if the test connection fails (`connectOk = false`), the same handler
runs `sys.exit(1)`.  `SystemExit` is not an `Exception`, so it passes
through `main`'s handler and the process exits with status 1.
Otherwise an engine is returned (modelled as `Unit`). -/
def getDbEngine (c : DBConfig) (connectOk : Bool) : Except Nat Unit :=
  if !configComplete c then .error 1
  else if !connectOk then .error 1
  else .ok ()

/-- Observable outcome of one `main()` run. -/
structure RunResult where
  exitCode : Nat
  provisionRan : Bool
  noFiles : Bool
  aborted : Bool
  staged : List StagingRow
  mergeRan : Bool
  inserted : Nat
  core : List CoreRow
  stagingAfter : List StagingRow
deriving DecidableEq

/-- The stages of `main()` after a connection is obtained:
`create_tables`, `find_csv_files` with the early `return` on an empty
list, the load loop, and `move_data_to_core`.  `core0` is the core
table's prior contents (staging starts empty: it was truncated by the
previous successful run or freshly created).  An exception from the
load loop is caught by `main`'s `except Exception`, logged as
critical, and `main` returns: the merge never runs and the process
still exits 0. -/
def runPipeline (core0 : List CoreRow) (files : List FileInput) : RunResult :=
  if files.isEmpty then
    { exitCode := 0, provisionRan := true, noFiles := true, aborted := false
      staged := [], mergeRan := false, inserted := 0, core := core0
      stagingAfter := [] }
  else
    match loadFiles [] files with
    | .error _ =>
      { exitCode := 0, provisionRan := true, noFiles := false, aborted := true
        staged := [], mergeRan := false, inserted := 0, core := core0
        stagingAfter := [] }
    | .ok staged =>
      let p := insertFromStaging core0 staged
      { exitCode := 0, provisionRan := true, noFiles := false, aborted := false
        staged := staged, mergeRan := true, inserted := p.2, core := p.1
        stagingAfter := [] }

/-- `main()` end to end: `get_db_engine` first (its `sys.exit(1)`
ends the process before any stage runs), then the pipeline stages. -/
def mainRun (c : DBConfig) (connectOk : Bool) (core0 : List CoreRow)
    (files : List FileInput) : RunResult :=
  match getDbEngine c connectOk with
  | .error code =>
    { exitCode := code, provisionRan := false, noFiles := false
      aborted := true, staged := [], mergeRan := false, inserted := 0
      core := core0, stagingAfter := [] }
  | .ok _ => runPipeline core0 files

/-! ### Basic lemmas about the merge statement -/

theorem toCore_line_item_id (r : StagingRow) :
    (toCore r).line_item_id = lineItemId r := rfl

theorem coreKeys_append (a b : List CoreRow) :
    coreKeys (a ++ b) = coreKeys a ++ coreKeys b := by
  simp [coreKeys]

theorem insertFromStaging_nil (core : List CoreRow) :
    insertFromStaging core [] = (core, 0) := rfl

theorem insertFromStaging_cons_mem {core : List CoreRow} {r : StagingRow}
    {rest : List StagingRow} (h : lineItemId r ∈ coreKeys core) :
    insertFromStaging core (r :: rest) = insertFromStaging core rest := by
  simp [insertFromStaging, h]

theorem insertFromStaging_cons_new {core : List CoreRow} {r : StagingRow}
    {rest : List StagingRow} (h : lineItemId r ∉ coreKeys core) :
    insertFromStaging core (r :: rest) =
      ((insertFromStaging (core ++ [toCore r]) rest).1,
        (insertFromStaging (core ++ [toCore r]) rest).2 + 1) := by
  simp [insertFromStaging, h]

theorem mem_coreKeys_insertFromStaging (s : List StagingRow) :
    ∀ (core : List CoreRow) (k : String),
      k ∈ coreKeys (insertFromStaging core s).1 ↔
        k ∈ coreKeys core ∨ k ∈ s.map lineItemId := by
  induction s with
  | nil => intro core k; simp [insertFromStaging_nil]
  | cons r rest ih =>
    intro core k
    by_cases h : lineItemId r ∈ coreKeys core
    · rw [insertFromStaging_cons_mem h]
      rw [ih core k]
      simp only [List.map_cons, List.mem_cons]
      constructor
      · rintro (hk | hk)
        · exact Or.inl hk
        · exact Or.inr (Or.inr hk)
      · rintro (hk | rfl | hk)
        · exact Or.inl hk
        · exact Or.inl h
        · exact Or.inr hk
    · rw [insertFromStaging_cons_new h]
      simp only [ih (core ++ [toCore r]) k, coreKeys_append, List.mem_append,
        List.map_cons, List.mem_cons]
      have : coreKeys [toCore r] = [lineItemId r] := rfl
      rw [this]
      simp only [List.mem_singleton]
      tauto

theorem insertFromStaging_of_forall_mem {s : List StagingRow} :
    ∀ {core : List CoreRow}, (∀ r ∈ s, lineItemId r ∈ coreKeys core) →
      insertFromStaging core s = (core, 0) := by
  induction s with
  | nil => intro core _; rfl
  | cons r rest ih =>
    intro core hall
    rw [insertFromStaging_cons_mem (hall r (List.mem_cons_self r rest))]
    exact ih fun x hx => hall x (List.mem_cons_of_mem r hx)

theorem staged_keys_present (s : List StagingRow) (core : List CoreRow)
    (r : StagingRow) (hr : r ∈ s) :
    lineItemId r ∈ coreKeys (insertFromStaging core s).1 := by
  rw [mem_coreKeys_insertFromStaging]
  exact Or.inr (List.mem_map_of_mem lineItemId hr)

theorem coreKeys_nodup_insertFromStaging (s : List StagingRow) :
    ∀ {core : List CoreRow}, (coreKeys core).Nodup →
      (coreKeys (insertFromStaging core s).1).Nodup := by
  induction s with
  | nil => intro core h; exact h
  | cons r rest ih =>
    intro core h
    by_cases hm : lineItemId r ∈ coreKeys core
    · rw [insertFromStaging_cons_mem hm]; exact ih h
    · rw [insertFromStaging_cons_new hm]
      apply ih
      rw [coreKeys_append]
      rw [List.nodup_append]
      refine ⟨h, List.nodup_singleton _, ?_⟩
      intro k hk hk1
      have : coreKeys [toCore r] = [lineItemId r] := rfl
      rw [this, List.mem_singleton] at hk1
      exact hm (hk1 ▸ hk)

theorem filter_key_length_eq_count (core : List CoreRow) (k : String) :
    (core.filter (fun c => c.line_item_id == k)).length = (coreKeys core).count k := by
  induction core with
  | nil => rfl
  | cons c rest ih =>
    by_cases h : c.line_item_id = k
    · simp [coreKeys, List.filter_cons, List.count_cons, h, ih] at *
    · simp [coreKeys, List.filter_cons, List.count_cons, h, ih] at *

theorem insertFromStaging_extends (s : List StagingRow) :
    ∀ (core : List CoreRow), ∃ ext,
      (insertFromStaging core s).1 = core ++ ext ∧
        ∀ c ∈ ext, c.line_item_id ∉ coreKeys core := by
  induction s with
  | nil => intro core; exact ⟨[], by simp [insertFromStaging_nil]⟩
  | cons r rest ih =>
    intro core
    by_cases hm : lineItemId r ∈ coreKeys core
    · rw [insertFromStaging_cons_mem hm]; exact ih core
    · rw [insertFromStaging_cons_new hm]
      obtain ⟨ext, hext, hkeys⟩ := ih (core ++ [toCore r])
      refine ⟨toCore r :: ext, ?_, ?_⟩
      · rw [hext]; simp
      · intro c hc
        rcases List.mem_cons.mp hc with rfl | hc
        · rw [toCore_line_item_id]; exact hm
        · intro hck
          exact hkeys c hc (by rw [coreKeys_append, List.mem_append]; exact Or.inl hck)

theorem find_insertFromStaging (s : List StagingRow) :
    ∀ (core : List CoreRow) (k : String), k ∉ coreKeys core →
      (insertFromStaging core s).1.find? (fun c => c.line_item_id == k) =
        Option.map toCore (s.find? (fun r => lineItemId r == k)) := by
  induction s with
  | nil =>
    intro core k hk
    rw [insertFromStaging_nil]
    show core.find? (fun c => c.line_item_id == k) = none
    rw [List.find?_eq_none]
    intro c hc hbeq
    exact hk (List.mem_map.mpr ⟨c, hc, by simpa using hbeq⟩)
  | cons r rest ih =>
    intro core k hk
    by_cases hm : lineItemId r ∈ coreKeys core
    · have hne : lineItemId r ≠ k := fun he => hk (he ▸ hm)
      have hskip : (r :: rest).find? (fun x => lineItemId x == k) =
          rest.find? (fun x => lineItemId x == k) :=
        List.find?_cons_of_neg rest (by simpa using hne)
      rw [insertFromStaging_cons_mem hm, ih core k hk, hskip]
    · rw [insertFromStaging_cons_new hm]
      by_cases hek : k = lineItemId r
      · subst hek
        have hhit : (r :: rest).find? (fun x => lineItemId x == lineItemId r) =
            some r :=
          List.find?_cons_of_pos rest (by simp)
        rw [hhit]
        obtain ⟨ext, hext, hkeys⟩ :=
          insertFromStaging_extends rest (core ++ [toCore r])
        simp only [hext, List.append_assoc, List.find?_append]
        have hcore : core.find? (fun c => c.line_item_id == lineItemId r) = none := by
          rw [List.find?_eq_none]
          intro c hc hbeq
          exact hk (List.mem_map.mpr ⟨c, hc, by simpa using hbeq⟩)
        rw [hcore]
        simp [toCore_line_item_id]
      · have hk2 : k ∉ coreKeys (core ++ [toCore r]) := by
          rw [coreKeys_append]
          intro hmem
          rcases List.mem_append.mp hmem with hmem | hmem
          · exact hk hmem
          · have hsing : coreKeys [toCore r] = [lineItemId r] := rfl
            rw [hsing, List.mem_singleton] at hmem
            exact hek hmem
        have hskip : (r :: rest).find? (fun x => lineItemId x == k) =
            rest.find? (fun x => lineItemId x == k) :=
          List.find?_cons_of_neg rest (by simpa using fun h => hek h.symm)
        rw [ih (core ++ [toCore r]) k hk2, hskip]

theorem insertFromStaging_append_fst (s1 : List StagingRow) :
    ∀ (core : List CoreRow) (s2 : List StagingRow),
      (insertFromStaging core (s1 ++ s2)).1 =
        (insertFromStaging (insertFromStaging core s1).1 s2).1 := by
  induction s1 with
  | nil => intro core s2; rfl
  | cons r rest ih =>
    intro core s2
    by_cases hm : lineItemId r ∈ coreKeys core
    · rw [List.cons_append, insertFromStaging_cons_mem hm,
        insertFromStaging_cons_mem hm, ih]
    · rw [List.cons_append, insertFromStaging_cons_new hm,
        insertFromStaging_cons_new hm, ih]

theorem mergeBatches_eq_insert_join (batches : List (List StagingRow)) :
    ∀ (core : List CoreRow),
      mergeBatches core batches = (insertFromStaging core batches.flatten).1 := by
  induction batches with
  | nil => intro core; rfl
  | cons b rest ih =>
    intro core
    show mergeBatches (insertFromStaging core b).1 rest = _
    rw [ih, List.flatten, insertFromStaging_append_fst]

/-- C1: after merging a sequence of batches into an empty core table,
any two staged rows sharing the same `(invoice, stockcode)` pair are
collapsed: exactly one core record carries their derived key, that
record is the projection of the first such row in merge order (the row
whose batch was merged first), and a staged row whose derived key is
already present in the core table leaves the table and the inserted
count unchanged (silently discarded). -/
theorem merge_dedup_first_wins (batches : List (List StagingRow))
    (r1 r2 : StagingRow) (h1 : r1 ∈ batches.flatten) (_h2 : r2 ∈ batches.flatten)
    (hinv : r1.invoice = r2.invoice) (hstock : r1.stockcode = r2.stockcode) :
    ((mergeBatches [] batches).filter
        (fun c => c.line_item_id == lineItemId r1)).length = 1 ∧
    (mergeBatches [] batches).find? (fun c => c.line_item_id == lineItemId r1) =
      Option.map toCore
        (batches.flatten.find? (fun x => lineItemId x == lineItemId r1)) ∧
    (mergeBatches [] batches).find? (fun c => c.line_item_id == lineItemId r2) =
      (mergeBatches [] batches).find? (fun c => c.line_item_id == lineItemId r1) ∧
    (∀ (core : List CoreRow) (r : StagingRow) (rest : List StagingRow),
      lineItemId r ∈ coreKeys core →
        insertFromStaging core (r :: rest) = insertFromStaging core rest) := by
  have hkey : lineItemId r2 = lineItemId r1 := by
    simp [lineItemId, hinv, hstock]
  rw [mergeBatches_eq_insert_join]
  refine ⟨?_, ?_, ?_, ?_⟩
  · rw [filter_key_length_eq_count]
    exact List.count_eq_one_of_mem
      (coreKeys_nodup_insertFromStaging batches.flatten List.nodup_nil)
      (staged_keys_present batches.flatten [] r1 h1)
  · exact find_insertFromStaging batches.flatten [] (lineItemId r1) (by simp [coreKeys])
  · rw [hkey]
  · intro core r rest hmem
    exact insertFromStaging_cons_mem hmem

/-- C2: merging the same staged content a second time inserts nothing:
the reported rowcount of the second merge is 0 and the core table is
unchanged, for every prior core-table state and staging content. -/
theorem merge_run_twice_idempotent (core : List CoreRow) (s : List StagingRow) :
    insertFromStaging (insertFromStaging core s).1 s =
      ((insertFromStaging core s).1, 0) :=
  insertFromStaging_of_forall_mem fun r hr => staged_keys_present s core r hr

/-- Witness for C1 at a concrete input: two single-row batches carry
the same `(invoice, stockcode)` pair with different quantities; after
both batches merge, exactly one core record carries the derived
key. -/
theorem merge_dedup_first_wins_witness :
    sampleRow "INV1" "SKU1" 5 ∈
        [[sampleRow "INV1" "SKU1" 5], [sampleRow "INV1" "SKU1" 7]].flatten ∧
    sampleRow "INV1" "SKU1" 7 ∈
        [[sampleRow "INV1" "SKU1" 5], [sampleRow "INV1" "SKU1" 7]].flatten ∧
    ((mergeBatches [] [[sampleRow "INV1" "SKU1" 5], [sampleRow "INV1" "SKU1" 7]]).filter
        (fun c => c.line_item_id == lineItemId (sampleRow "INV1" "SKU1" 5))).length = 1 ∧
    (mergeBatches [] [[sampleRow "INV1" "SKU1" 5], [sampleRow "INV1" "SKU1" 7]]).find?
        (fun c => c.line_item_id == lineItemId (sampleRow "INV1" "SKU1" 5)) =
      Option.map toCore
        ([[sampleRow "INV1" "SKU1" 5], [sampleRow "INV1" "SKU1" 7]].flatten.find?
          (fun x => lineItemId x == lineItemId (sampleRow "INV1" "SKU1" 5))) :=
  ⟨by decide, by decide,
    (merge_dedup_first_wins
        [[sampleRow "INV1" "SKU1" 5], [sampleRow "INV1" "SKU1" 7]]
        (sampleRow "INV1" "SKU1" 5) (sampleRow "INV1" "SKU1" 7)
        (by decide) (by decide) rfl rfl).1,
    (merge_dedup_first_wins
        [[sampleRow "INV1" "SKU1" 5], [sampleRow "INV1" "SKU1" 7]]
        (sampleRow "INV1" "SKU1" 5) (sampleRow "INV1" "SKU1" 7)
        (by decide) (by decide) rfl rfl).2.1⟩

/-- C3: evaluation at the failing input.  With a first file that
`pd.read_csv` cannot parse followed by a well-formed file, the load
loop raises out of the `except` handler (the handler's debug line
reads the unbound local `df`), `main` catches the exception, and the
run ends with the good file never staged and the merge never run —
contradicting the claimed per-batch failure isolation.  By contrast a
file that fails after `read_csv` succeeds is isolated as claimed. -/
theorem malformed_first_file_aborts_pipeline :
    runPipeline [] [FileInput.badAtRead "ParserError",
        FileInput.ok [sampleRow "INV1" "SKU1" 5]] =
      { exitCode := 0, provisionRan := true, noFiles := false, aborted := true,
        staged := [], mergeRan := false, inserted := 0, core := [],
        stagingAfter := [] } ∧
    loadFiles [] [FileInput.badAfterRead "to_datetime",
        FileInput.ok [sampleRow "INV1" "SKU1" 5]] =
      Except.ok [sampleRow "INV1" "SKU1" 5] :=
  ⟨rfl, rfl⟩

/-- C4: evaluation at the failing input.  A missing/null string cell
is converted by `astype(str)` to the string `"nan"` before
`fillna('Unknown')` runs, so the sentinel is never applied: the stored
value is `"nan"`, not `"Unknown"` as the spec states. -/
theorem null_string_field_becomes_nan :
    normalizeStrField none = some "nan" ∧
    specNormalizeStrField none = some "Unknown" ∧
    normalizeStrField none ≠ specNormalizeStrField none := by
  refine ⟨rfl, rfl, ?_⟩
  decide

/-- C5: if the insert-from-staging transaction fails, the error is
re-raised and both tables are unchanged — in particular staging keeps
its rows for a retry, because `TRUNCATE` runs only after a successful
merge; and a successful run merges then truncates staging. -/
theorem merge_failure_keeps_staging (core : List CoreRow)
    (staging : List StagingRow) :
    (moveDataToCore core staging false).1 = (core, staging) ∧
    (moveDataToCore core staging false).2 = Except.error "merge error" ∧
    (moveDataToCore core staging true).1.2 = [] ∧
    moveDataToCore core staging true =
      (((insertFromStaging core staging).1, []),
        Except.ok (insertFromStaging core staging).2) :=
  ⟨rfl, rfl, rfl, rfl⟩

/-- C6: best-effort numeric coercion — a quantity cell whose string
does not parse as a number, and a missing quantity cell, both
normalize to 0; likewise for the decimal columns under any numeric
parser.  The row is never rejected (the normalizers are total). -/
theorem numeric_coerce_zero_fill (s : String) (h : parseIntCell s = none)
    (parse : String → Option Rat) (t : String) (ht : parse t = none) :
    normalizeQuantity (some s) = 0 ∧ normalizeQuantity none = 0 ∧
    normalizeDecimal parse (some t) = 0 ∧ normalizeDecimal parse none = 0 := by
  refine ⟨?_, rfl, ?_, rfl⟩
  · simp [normalizeQuantity, toNumericCoerce, h]
  · simp [normalizeDecimal, toNumericCoerceRat, ht]

/-- Witness for C6 at a concrete input: the unparseable quantity cell
`"not a number"` normalizes to 0. -/
theorem numeric_coerce_zero_fill_witness :
    parseIntCell "not a number" = none ∧
    (normalizeQuantity (some "not a number") = 0 ∧ normalizeQuantity none = 0 ∧
      normalizeDecimal (fun _ => none) (some "x") = 0 ∧
      normalizeDecimal (fun _ => none) none = 0) :=
  ⟨by decide,
    numeric_coerce_zero_fill "not a number" (by decide) (fun _ => none) "x" rfl⟩

/-- C7: the derived identifier is not injective on
`(invoice, stockcode)` pairs: invoice `A_B` with stock code `C` and
invoice `A` with stock code `B_C` concatenate to the same
`line_item_id`, and merging both rows keeps only the first — the two
distinct pairs collapse to one core record. -/
theorem line_item_id_collision :
    lineItemId (sampleRow "A_B" "C" 1) = lineItemId (sampleRow "A" "B_C" 2) ∧
    ((sampleRow "A_B" "C" 1).invoice, (sampleRow "A_B" "C" 1).stockcode) ≠
      ((sampleRow "A" "B_C" 2).invoice, (sampleRow "A" "B_C" 2).stockcode) ∧
    (insertFromStaging [] [sampleRow "A_B" "C" 1, sampleRow "A" "B_C" 2]).1 =
      [toCore (sampleRow "A_B" "C" 1)] := by
  refine ⟨rfl, by decide, by decide⟩

/-- C8: with a missing/empty connection parameter, or an unreachable
backing store, `sys.exit(1)` ends the process with exit status 1
before provisioning, loading or merging runs, and the core table is
untouched. -/
theorem missing_config_exits_first (c : DBConfig) (connectOk : Bool)
    (core0 : List CoreRow) (files : List FileInput)
    (h : configComplete c = false ∨ connectOk = false) :
    mainRun c connectOk core0 files =
      { exitCode := 1, provisionRan := false, noFiles := false, aborted := true,
        staged := [], mergeRan := false, inserted := 0, core := core0,
        stagingAfter := [] } ∧
    (mainRun c connectOk core0 files).exitCode ≠ 0 := by
  have hget : getDbEngine c connectOk = .error 1 := by
    rcases h with h | h
    · simp [getDbEngine, h]
    · cases hc : configComplete c <;> simp [getDbEngine, h, hc]
  refine ⟨?_, ?_⟩ <;> simp [mainRun, hget]

/-- Witness for C8 at a concrete input: `POSTGRES_USER` unset, every
other variable set, connection reachable. -/
theorem missing_config_exits_first_witness :
    configComplete ⟨none, some "pw", some "localhost", some "5432", some "db"⟩
      = false ∧
    (mainRun ⟨none, some "pw", some "localhost", some "5432", some "db"⟩
        true [] [] =
      { exitCode := 1, provisionRan := false, noFiles := false, aborted := true,
        staged := [], mergeRan := false, inserted := 0, core := [],
        stagingAfter := [] } ∧
    (mainRun ⟨none, some "pw", some "localhost", some "5432", some "db"⟩
        true [] []).exitCode ≠ 0) :=
  ⟨by decide,
    missing_config_exits_first
      ⟨none, some "pw", some "localhost", some "5432", some "db"⟩
      true [] [] (Or.inl (by decide))⟩

/-- C9: with a working configuration but an empty input directory,
`main` takes the early `return`: exit status 0, no abort, the merge
never runs and the core table is unchanged — the defined no-op
terminal state. -/
theorem empty_input_noop_run (c : DBConfig) (connectOk : Bool)
    (core0 : List CoreRow) (hc : configComplete c = true)
    (hconn : connectOk = true) :
    mainRun c connectOk core0 [] =
      { exitCode := 0, provisionRan := true, noFiles := true, aborted := false,
        staged := [], mergeRan := false, inserted := 0, core := core0,
        stagingAfter := [] } := by
  subst hconn
  simp [mainRun, getDbEngine, hc, runPipeline]

/-- Witness for C9 at a concrete input: full configuration, a
one-record core table, no CSV files. -/
theorem empty_input_noop_run_witness :
    configComplete ⟨some "etl", some "pw", some "localhost", some "5432",
        some "db"⟩ = true ∧
    mainRun ⟨some "etl", some "pw", some "localhost", some "5432", some "db"⟩
        true [toCore (sampleRow "INV1" "SKU1" 5)] [] =
      { exitCode := 0, provisionRan := true, noFiles := true, aborted := false,
        staged := [], mergeRan := false, inserted := 0,
        core := [toCore (sampleRow "INV1" "SKU1" 5)], stagingAfter := [] } :=
  ⟨by decide,
    empty_input_noop_run
      ⟨some "etl", some "pw", some "localhost", some "5432", some "db"⟩
      true [toCore (sampleRow "INV1" "SKU1" 5)] (by decide) rfl⟩

theorem char_toLower_ne_space (c : Char) (hc : c ≠ ' ') :
    Char.toLower c ≠ ' ' := by
  simp only [Char.toLower]
  split
  next h =>
    obtain ⟨h1, h2⟩ := h
    generalize hg : Char.toNat c = n at h1 h2 ⊢
    interval_cases n <;> decide
  next h => exact hc

theorem char_toLower_not_upper (c : Char) : (Char.toLower c).isUpper = false := by
  simp only [Char.toLower]
  split
  next h =>
    obtain ⟨h1, h2⟩ := h
    generalize hg : Char.toNat c = n at h1 h2 ⊢
    interval_cases n <;> decide
  next h =>
    have h65 : ((65 : UInt32) ≤ c.val) ↔ (65 ≤ Char.toNat c) := Iff.rfl
    have h90 : (c.val ≤ (90 : UInt32)) ↔ (Char.toNat c ≤ 90) := Iff.rfl
    simp only [Char.isUpper, ge_iff_le, Bool.and_eq_false_imp, decide_eq_true_eq,
      decide_eq_false_iff_not]
    intro hge
    rw [h90]
    intro hle
    exact h ⟨h65.mp hge, hle⟩

theorem normalizeHeader_data (s : String) :
    (normalizeHeader s).data =
      s.data.map (fun c => if c = ' ' then '_' else Char.toLower c) := by
  show (s.data.map Char.toLower).map (fun c => if c = ' ' then '_' else c) = _
  rw [List.map_map]
  apply List.map_congr_left
  intro a _
  by_cases ha : a = ' '
  · subst ha; simp
  · simp only [Function.comp_apply, if_neg ha, if_neg (char_toLower_ne_space a ha)]

/-- C10: header normalization maps each character to lower case and
each space to the separator `'_'` — so the result never contains a
space or an upper-case letter — and the header `"Customer ID"`
normalizes to `customer_id`. -/
theorem header_normalization_lower_and_separator (s : String) :
    normalizeHeader "Customer ID" = "customer_id" ∧
    (normalizeHeader s).data =
      s.data.map (fun c => if c = ' ' then '_' else Char.toLower c) ∧
    ∀ c ∈ (normalizeHeader s).data, c ≠ ' ' ∧ c.isUpper = false := by
  refine ⟨by decide, normalizeHeader_data s, ?_⟩
  intro c hc
  rw [normalizeHeader_data s] at hc
  obtain ⟨a, _, rfl⟩ := List.mem_map.mp hc
  by_cases ha : a = ' '
  · subst ha
    constructor <;> decide
  · simp only [if_neg ha]
    exact ⟨char_toLower_ne_space a ha, char_toLower_not_upper a⟩
